import Mathlib

/-! Verification of the streaming generation engine of an Effect-based LLM
client library. The development shallowly embeds, from the TypeScript source,
the tool-dispatch loop (src/generation.ts), the Anthropic-style and
OpenAI-style stream decoders (src/providers/anthropic.ts,
src/providers/openai.ts) and the SSE reader's queue bridge (src/sse.ts), and
proves the specified properties about them. Effectful streams are modelled by
the ordered list of events they emit together with a terminal signal; the
external JSON parser (the effect schema library's S.parseJson) is a parameter
of the embedding. -/

namespace EffectLLM

/-- Decoded JSON values: the payloads flowing through tool inputs and results
(the source types them as decoded unknown JSON). -/
inductive Json where
  | null : Json
  | bool (b : Bool) : Json
  | num (n : Int) : Json
  | str (s : String) : Json
  | arr (elems : List Json) : Json
  | obj (fields : List (String × Json)) : Json

/-- A portion of a user message's content (thread.ts ContentChunk). -/
inductive ContentChunk where
  | TextChunk (content : String)
  | ImageChunk (dataType mimeType content : String)
deriving DecidableEq, Repr

/-- A completed assistant message (thread.ts AssistantMessage). -/
structure AssistantMessage where
  content : String
deriving DecidableEq, Repr

/-- An event in a conversation thread (thread.ts ThreadEvent). -/
inductive ThreadEvent where
  | SystemMessage (content : String)
  | UserMessage (content : List ContentChunk)
  | AssistantMessage (content : String)
  | ToolUseEvent (id name : String) (input : Json)
  | ToolResultSuccessEvent (id name : String) (result : Json)
  | ToolResultErrorEvent (id name : String) (result : Json)

/-- A canonical stream event (generation.ts StreamEvent). -/
inductive StreamEvent where
  | ContentStart (content : String)
  | Content (content : String)
  | Message (message : AssistantMessage)
  | ToolCallStart (id name : String)
  | ToolCall (id name arguments : String)
  | InvalidToolCall (id name arguments : String)
  | Stats (inputTokens outputTokens : Nat)
deriving DecidableEq, Repr

/-- An event emitted by streamTools (generation.ts StreamToolsEvent): a
forwarded stream event, the loop markers, or a tool result surfaced to the
caller. -/
inductive StreamToolsEvent where
  | streamEvent (event : StreamEvent)
  | StreamLoop
  | StreamLoopEnd
  | ToolResultSuccess (id name : String) (result : Json)
  | ToolResultError (id name : String) (result : Json)

/-- The outcome of running one tool handler effect through the catch chain
of handleToolCalls in generation.ts and the stream's outer defect handler: a
success value; a declared ToolError reported to the model; the
HaltToolLoopError halt signal (re-raised, caught by catchTag, ends the
stream); a failure with the library's InvalidToolCallError, carrying its
toolCall fields and message (re-raised unchanged by the instanceof check and
recovered by the outer catchIf through onInvalidToolCall); any other error
in the failure channel (wrapped into ToolExecutionError and fatal); or a
thrown defect (which bypasses the failure channel entirely and is surfaced
by the outer catchAllDefect as an UnknownException). -/
inductive HandlerOutcome where
  | success (result : Json)
  | toolError (payload : Json)
  | halt
  | invalidCall (id name arguments message : String)
  | failure (message : String)
  | died (message : String)

/-- A registered tool (generation.ts ToolDefinition). hasSchema mirrors
S.isSchema(input): when true, arguments are JSON-parsed and then validated by
the schema (S.parseJson(input)); when false they are only JSON-parsed.
validate returns the decoded input or the ParseError message. -/
structure ToolDefinition where
  name : String
  hasSchema : Bool
  validate : Json → Except String Json
  effect : String → Json → HandlerOutcome

/-- Parameters of a streamTools call (generation.ts StreamParams), restricted
to the fields the loop itself reads. maxIterations = none mirrors an absent
maxIterations (an unbounded loop). truncateEvents failures carry the
TruncateEventsError message. -/
structure StreamParams where
  events : List ThreadEvent
  maxIterations : Option Nat
  tools : List ToolDefinition
  truncateEvents : Option (List ThreadEvent → Except String (List ThreadEvent))

/-- A terminal error signal of the streamTools output stream (generation.ts
error union). outOfFuel is an artifact of the embedding only: it stands for
the recursion budget of the Lean model running out, and is never reached in
any verified scenario (theorems supply sufficient fuel). -/
inductive StreamError where
  | maxIterationsError
  | parseError (message : String)
  | toolExecutionError (id message : String)
  | unknownException (message : String)
  | truncateEventsError (message : String)
  | outOfFuel

/-- An error raised while recording a tool call in onStreamEvent
(generation.ts): UnknownToolCallError, InvalidToolCallError, or the plain
ParseError raised when a JSON-schema (non-validating) tool's arguments fail
to parse. -/
inductive RecordError where
  | unknownToolCall (id name arguments : String)
  | invalidToolCall (id name arguments message : String)
  | parseError (message : String)

/-- A recorded pending tool call (the fnCalls entries of generation.ts). -/
structure FnCall where
  id : String
  name : String
  args : String
  input : Json
  fnDefn : ToolDefinition

/-- Look up a tool by name among the registered definitions
(Array.findFirst in generation.ts onStreamEvent). -/
def findTool (tools : List ToolDefinition) (name : String) : Option ToolDefinition :=
  tools.find? (fun fn => fn.name == name)

/-- Process one stream event (generation.ts onStreamEvent): a ToolCall is
looked up and its arguments decoded, either recording an FnCall or failing
with the corresponding record error; every other event records nothing.
The event itself is forwarded afterwards by the caller. -/
def onStreamEvent (parse : String → Except String Json) (tools : List ToolDefinition) :
    StreamEvent → Except RecordError (Option FnCall)
  | .ToolCall id name args =>
    match findTool tools name with
    | none => .error (.unknownToolCall id name args)
    | some fn =>
      if fn.hasSchema then
        match (parse args).bind fn.validate with
        | .error msg => .error (.invalidToolCall id name args msg)
        | .ok input => .ok (some ⟨id, name, args, input, fn⟩)
      else
        match parse args with
        | .error msg => .error (.parseError msg)
        | .ok input => .ok (some ⟨id, name, args, input, fn⟩)
  | _ => .ok none

/-- True when onStreamEvent records the event without failing. -/
def recordsOk (parse : String → Except String Json) (tools : List ToolDefinition)
    (e : StreamEvent) : Bool :=
  match onStreamEvent parse tools e with
  | .ok _ => true
  | .error _ => false

/-- Run onStreamEvent over the provider's events in order (the
Stream.runForEach(onStreamEvent) of generation.ts): events processed before a
failure are forwarded to the output, the failing event is not forwarded, and
recorded calls accumulate in stream order. -/
def recordCalls (parse : String → Except String Json) (tools : List ToolDefinition) :
    List StreamEvent → List StreamToolsEvent × List FnCall × Option RecordError
  | [] => ([], [], none)
  | e :: rest =>
    match onStreamEvent parse tools e with
    | .error err => ([], [], some err)
    | .ok call? =>
      match recordCalls parse tools rest with
      | (out, calls, err?) => (.streamEvent e :: out, call?.toList ++ calls, err?)

/-- A scheduling trace entry: a tool handler's invocation starts or resolves. -/
inductive TraceEntry where
  | enter (id : String)
  | exit (id : String)
deriving DecidableEq, Repr

/-- How a batch of tool calls ended (generation.ts handleToolCalls): all
calls processed; halted by the halt signal; aborted by a handler's
InvalidToolCallError failure (which the outer catchIf then recovers through
onInvalidToolCall); aborted by a fatal ToolExecutionError; or aborted by a
thrown defect (surfaced as UnknownException). -/
inductive BatchResult where
  | completed
  | halted
  | invalidCall (id name arguments message : String)
  | fatal (id message : String)
  | died (message : String)

/-- The observable outcome of handleToolCalls: tool-result events emitted to
the output, thread events accumulated in newEvents, the handler scheduling
trace, and how the batch ended. -/
structure BatchOutput where
  emitted : List StreamToolsEvent
  newEvents : List ThreadEvent
  trace : List TraceEntry
  result : BatchResult

/-- Execute the recorded tool calls sequentially in stream order
(generation.ts handleToolCalls, the for loop over fnCalls). A success or a
declared ToolError emits a result, appends the ToolUseEvent plus the matching
result event, and continues; the halt signal stops the batch (ending the
stream successfully); any other raised error aborts the batch fatally. The
ToolUseEvent of a halted or failed call is not appended, mirroring the
source where the handler failure aborts before the push. An
InvalidToolCallError failure aborts the batch carrying the error (recovered
by the caller), an undeclared failure-channel error aborts it fatally with
the ToolExecutionError, and a thrown defect aborts it carrying the defect. -/
def handleToolCalls : List FnCall → BatchOutput
  | [] => ⟨[], [], [], .completed⟩
  | c :: rest =>
    match c.fnDefn.effect c.id c.input with
    | .success r =>
      let o := handleToolCalls rest
      ⟨.ToolResultSuccess c.id c.name r :: o.emitted,
       .ToolUseEvent c.id c.name c.input :: .ToolResultSuccessEvent c.id c.name r :: o.newEvents,
       .enter c.id :: .exit c.id :: o.trace, o.result⟩
    | .toolError p =>
      let o := handleToolCalls rest
      ⟨.ToolResultError c.id c.name p :: o.emitted,
       .ToolUseEvent c.id c.name c.input :: .ToolResultErrorEvent c.id c.name p :: o.newEvents,
       .enter c.id :: .exit c.id :: o.trace, o.result⟩
    | .halt => ⟨[], [], [.enter c.id, .exit c.id], .halted⟩
    | .invalidCall i n a m => ⟨[], [], [.enter c.id, .exit c.id], .invalidCall i n a m⟩
    | .failure msg => ⟨[], [], [.enter c.id, .exit c.id], .fatal c.id msg⟩
    | .died msg => ⟨[], [], [.enter c.id, .exit c.id], .died msg⟩

/-- The observable outcome of a streamTools call: the emitted output events
in order, the log of provider invocations (the thread passed to each backend
call), and the terminal signal (none = the stream ended successfully). -/
structure LoopOutput where
  emitted : List StreamToolsEvent
  calls : List (List ThreadEvent)
  error? : Option StreamError

/-- Apply the caller-supplied truncation function to the thread, if any
(generation.ts, the truncatedEvents binding). -/
def truncateOf (params : StreamParams) : Except String (List ThreadEvent) :=
  match params.truncateEvents with
  | none => .ok params.events
  | some f => f params.events

/-- Handle an unknown or invalid tool call (generation.ts onInvalidToolCall):
emit an InvalidToolCall event, re-parse the raw arguments (a parse failure
here fails the whole stream with a plain ParseError), then recurse with the
thread extended by the synthesized ToolUseEvent and ToolResultErrorEvent and
the iteration budget decremented. loop is the recursion at one less fuel. -/
def onInvalidToolCall (parse : String → Except String Json)
    (loop : StreamParams → LoopOutput) (params : StreamParams)
    (outPre : List StreamToolsEvent) (callLog : List (List ThreadEvent))
    (id name args msg : String) : LoopOutput :=
  let out0 := outPre ++ [.streamEvent (.InvalidToolCall id name args)]
  match parse args with
  | .error pmsg => ⟨out0, callLog, some (.parseError pmsg)⟩
  | .ok input =>
    let recOut := loop
      { params with
        events := params.events ++
          [.ToolUseEvent id name input, .ToolResultErrorEvent id name (.str msg)],
        maxIterations := params.maxIterations.map (· - 1) }
    ⟨out0 ++ recOut.emitted, callLog ++ recOut.calls, recOut.error?⟩

/-- The tool-dispatch loop (generation.ts streamTools). One iteration: fail
fast when the iteration budget is exactly zero; emit the StreamLoop marker;
truncate the thread; invoke the provider and record tool calls while
forwarding events; on an unknown or invalid call divert to onInvalidToolCall;
otherwise emit StreamLoopEnd, run the batch, and either end, halt, recover a
handler's InvalidToolCallError through onInvalidToolCall (which recurses),
fail fatally (ToolExecutionError for an undeclared failure-channel error,
UnknownException for a thrown defect), or recurse with the extended thread
and decremented budget. fuel bounds the recursion depth of the embedding
only. -/
def streamTools (parse : String → Except String Json)
    (provider : List ThreadEvent → List StreamEvent) :
    Nat → StreamParams → LoopOutput
  | 0, _ => ⟨[], [], some .outOfFuel⟩
  | fuel + 1, params =>
    if params.maxIterations = some 0 then ⟨[], [], some .maxIterationsError⟩
    else
      match truncateOf params with
      | .error msg => ⟨[.StreamLoop], [], some (.truncateEventsError msg)⟩
      | .ok truncated =>
        match recordCalls parse params.tools (provider truncated) with
        | (fwd, fnCalls, err?) =>
          match err? with
          | some (.parseError msg) =>
            ⟨.StreamLoop :: fwd, [truncated], some (.parseError msg)⟩
          | some (.unknownToolCall id name args) =>
            onInvalidToolCall parse (streamTools parse provider fuel) params
              (.StreamLoop :: fwd) [truncated] id name args ("Unknown tool call: " ++ name)
          | some (.invalidToolCall id name args msg) =>
            onInvalidToolCall parse (streamTools parse provider fuel) params
              (.StreamLoop :: fwd) [truncated] id name args msg
          | none =>
            if fnCalls.isEmpty then
              ⟨.StreamLoop :: fwd ++ [.StreamLoopEnd], [truncated], none⟩
            else
              let batch := handleToolCalls fnCalls
              match batch.result with
              | .completed =>
                let recOut := streamTools parse provider fuel
                  { params with
                    events := params.events ++ batch.newEvents,
                    maxIterations := params.maxIterations.map (· - 1) }
                ⟨.StreamLoop :: fwd ++ [.StreamLoopEnd] ++ batch.emitted ++ recOut.emitted,
                 truncated :: recOut.calls, recOut.error?⟩
              | .halted =>
                ⟨.StreamLoop :: fwd ++ [.StreamLoopEnd] ++ batch.emitted, [truncated], none⟩
              | .invalidCall id name args msg =>
                onInvalidToolCall parse (streamTools parse provider fuel) params
                  (.StreamLoop :: fwd ++ [.StreamLoopEnd] ++ batch.emitted) [truncated]
                  id name args msg
              | .fatal id msg =>
                ⟨.StreamLoop :: fwd ++ [.StreamLoopEnd] ++ batch.emitted, [truncated],
                 some (.toolExecutionError id msg)⟩
              | .died msg =>
                ⟨.StreamLoop :: fwd ++ [.StreamLoopEnd] ++ batch.emitted, [truncated],
                 some (.unknownException msg)⟩

/-! The Anthropic-style decoder (src/providers/anthropic.ts, make.stream):
the decoded vendor events and the content-block state machine of the
Stream.mapConcat body operating on the mutable blocks array. A thrown
JavaScript Error (Option.getOrThrowWith, throw new Error) is a
programmer-visible defect, modelled as the Except error channel of a step;
it is distinct both from a recoverable decode error (undecodable frames are
silently dropped by Stream.filterMap before this state machine) and from a
silent skip (an ok step with no emitted events). -/

/-- A decoded content-block delta (anthropic.ts TextDelta / ToolUseDelta). -/
inductive AnthropicDelta where
  | textDelta (text : String)
  | inputJsonDelta (partialJson : String)
deriving DecidableEq, Repr

/-- The content_block payload of a content_block_start frame. -/
inductive AnthropicContentBlockInfo where
  | text (text : String)
  | toolUse (id name : String)
deriving DecidableEq, Repr

/-- A decoded Anthropic stream event (anthropic.ts AnthropicStreamEvent). -/
inductive AnthropicEvent where
  | messageStart (inputTokens outputTokens : Nat)
  | messageDelta (outputTokens : Nat)
  | contentBlockStart (index : Nat) (contentBlock : AnthropicContentBlockInfo)
  | contentBlockDelta (index : Nat) (delta : AnthropicDelta)
  | contentBlockStop (index : Nat)
deriving DecidableEq, Repr

/-- An open content block of the decoder state (anthropic.ts Block). -/
inductive Block where
  | text (index : Nat) (text : String)
  | toolUse (index : Nat) (id name input : String)
deriving DecidableEq, Repr

/-- The index of a block. -/
def Block.index : Block → Nat
  | .text i _ => i
  | .toolUse i _ _ _ => i

/-- Whether some open text block has the given index (the Array.findFirst
predicate of the text_delta handler). -/
def hasTextBlock (blocks : List Block) (idx : Nat) : Bool :=
  blocks.any fun b => match b with
    | .text i _ => i == idx
    | _ => false

/-- Whether some open tool-use block has the given index (the Array.findFirst
predicate of the input_json_delta handler). -/
def hasToolBlock (blocks : List Block) (idx : Nat) : Bool :=
  blocks.any fun b => match b with
    | .toolUse i _ _ _ => i == idx
    | _ => false

/-- Append a text delta to the first open text block with the given index
(the in-place block.text += mutation). -/
def appendTextDelta : List Block → Nat → String → List Block
  | [], _, _ => []
  | .text i s :: rest, idx, t =>
    if i == idx then .text i (s ++ t) :: rest
    else .text i s :: appendTextDelta rest idx t
  | b :: rest, idx, t => b :: appendTextDelta rest idx t

/-- Append a partial-JSON delta to the first open tool-use block with the
given index (the in-place block.toolUse.input += mutation). -/
def appendJsonDelta : List Block → Nat → String → List Block
  | [], _, _ => []
  | .toolUse i id name inp :: rest, idx, pj =>
    if i == idx then .toolUse i id name (inp ++ pj) :: rest
    else .toolUse i id name inp :: appendJsonDelta rest idx pj
  | b :: rest, idx, pj => b :: appendJsonDelta rest idx pj

/-- One step of the Anthropic content-block state machine (the
Match.discriminatorsExhaustive body of make.stream). The Except error is the
thrown defect. -/
def anthropicStep (blocks : List Block) :
    AnthropicEvent → Except String (List Block × List StreamEvent)
  | .messageStart it ot => .ok (blocks, [.Stats it ot])
  | .messageDelta ot => .ok (blocks, [.Stats 0 ot])
  | .contentBlockStart idx (.text _initial) =>
    .ok (blocks ++ [.text idx ""], [.ContentStart ""])
  | .contentBlockStart idx (.toolUse id name) =>
    .ok (blocks ++ [.toolUse idx id name ""], [.ToolCallStart id name])
  | .contentBlockDelta idx (.textDelta t) =>
    if hasTextBlock blocks idx then
      .ok (appendTextDelta blocks idx t, [.Content t])
    else .error "No text block found"
  | .contentBlockDelta idx (.inputJsonDelta pj) =>
    if hasToolBlock blocks idx then
      .ok (appendJsonDelta blocks idx pj, [])
    else .error "No tool use block found"
  | .contentBlockStop idx =>
    match blocks.find? (fun b => b.index == idx) with
    | none => .error "No content block found"
    | some (.text _ t) => .ok (blocks, [.Message ⟨t⟩])
    | some (.toolUse _ id name input) => .ok (blocks, [.ToolCall id name input])

/-- Run the Anthropic state machine over a list of decoded events,
concatenating the emitted stream events; a defect aborts the run. -/
def anthropicRun (blocks : List Block) :
    List AnthropicEvent → Except String (List Block × List StreamEvent)
  | [] => .ok (blocks, [])
  | e :: rest =>
    match anthropicStep blocks e with
    | .error msg => .error msg
    | .ok (blocks1, out) =>
      match anthropicRun blocks1 rest with
      | .error msg => .error msg
      | .ok (blocks2, outRest) => .ok (blocks2, out ++ outRest)

/-! The OpenAI-style decoder (src/providers/openai.ts, make.stream): the
decoded chat.completion.chunk payloads and the accumulation state machine of
the Stream.mapConcat body over partialMessage and the partialToolCalls map. -/

/-- A tool-call fragment of a chunk delta (openai.ts ChatCompletionMessage
tool_calls entry; id and name are optional in the schema). -/
structure ToolCallFragment where
  index : Nat
  id : Option String
  name : Option String
  arguments : String
deriving DecidableEq, Repr

/-- A decoded finish_reason (openai.ts ChatCompletionFinishReason). -/
inductive FinishReason where
  | stop
  | toolCalls
deriving DecidableEq, Repr

/-- A decoded streaming chunk, restricted to the fields the state machine
reads: choices[0].delta.content, choices[0].delta.tool_calls,
choices[0].finish_reason and usage. -/
structure ChatCompletionChunk where
  content : Option String
  toolCalls : List ToolCallFragment
  finishReason : Option FinishReason
  usage : Option (Nat × Nat)
deriving DecidableEq, Repr

/-- An accumulated partial tool call (the partialToolCalls map values). -/
structure ToolAcc where
  id : String
  name : String
  arguments : String
deriving DecidableEq, Repr

/-- The mutable state of the OpenAI decoder: the partial text and the
per-index tool-call map, in insertion order (a JavaScript Map iterates its
values in insertion order). -/
structure OpenAIState where
  partialMessage : String
  partialToolCalls : List (Nat × ToolAcc)
deriving DecidableEq, Repr

/-- The initial decoder state of one stream call. -/
def openaiInit : OpenAIState := ⟨"", []⟩

/-- Map lookup by index (Map.get). -/
def mapGet : List (Nat × ToolAcc) → Nat → Option ToolAcc
  | [], _ => none
  | (k1, v) :: rest, k => if k1 = k then some v else mapGet rest k

/-- Map insertion by index (Map.set): an existing key is updated in place,
keeping its insertion position; a new key is appended. -/
def mapSet : List (Nat × ToolAcc) → Nat → ToolAcc → List (Nat × ToolAcc)
  | [], k, v => [(k, v)]
  | (k1, v1) :: rest, k, v =>
    if k1 = k then (k1, v) :: rest else (k1, v1) :: mapSet rest k v

/-- The empty accumulator a fresh index starts from. -/
def emptyAcc : ToolAcc := ⟨"", "", ""⟩

/-- Fold one optional tool-call fragment into the map (openai.ts: the
tool.id and tool.name or-assignments keep the first non-empty value, and
tool.arguments concatenates fragments in arrival order). -/
def accumulateToolCall (m : List (Nat × ToolAcc)) :
    Option ToolCallFragment → List (Nat × ToolAcc)
  | none => m
  | some tc =>
    let tool := (mapGet m tc.index).getD emptyAcc
    mapSet m tc.index
      { id := if tool.id = "" then tc.id.getD "" else tool.id,
        name := if tool.name = "" then tc.name.getD "" else tool.name,
        arguments := tool.arguments ++ tc.arguments }

/-- One step of the OpenAI accumulation state machine (the Stream.mapConcat
body of make.stream): usage stats first, then the content fragment, then the
first tool-call fragment of the chunk is folded into the map; a chunk with a
finish_reason or a tool-call fragment flushes a non-empty partial message as
a Message (resetting it); a chunk with a finish_reason additionally emits a
ToolCall for every accumulated entry, in map order. -/
def openaiStep (st : OpenAIState) (chunk : ChatCompletionChunk) :
    OpenAIState × List StreamEvent :=
  let usageEvents : List StreamEvent :=
    match chunk.usage with
    | some (pt, ct) => [.Stats pt ct]
    | none => []
  let pm1 := match chunk.content with
    | some c => st.partialMessage ++ c
    | none => st.partialMessage
  let contentEvents : List StreamEvent :=
    match chunk.content with
    | some c => [.Content c]
    | none => []
  let toolCall? := chunk.toolCalls.head?
  let ptc1 := accumulateToolCall st.partialToolCalls toolCall?
  let flushMessage := chunk.finishReason.isSome || toolCall?.isSome
  let pm2 := if flushMessage && pm1.length > 0 then "" else pm1
  let messageEvents : List StreamEvent :=
    if flushMessage && pm1.length > 0 then [.Message ⟨pm1⟩] else []
  let toolCallEvents : List StreamEvent :=
    if chunk.finishReason.isSome then
      ptc1.map (fun p => .ToolCall p.2.id p.2.name p.2.arguments)
    else []
  (⟨pm2, ptc1⟩, usageEvents ++ contentEvents ++ messageEvents ++ toolCallEvents)

/-- Run the OpenAI state machine over a list of decoded chunks, concatenating
the emitted stream events. -/
def openaiRun (st : OpenAIState) : List ChatCompletionChunk → OpenAIState × List StreamEvent
  | [] => (st, [])
  | c :: rest =>
    match openaiStep st c with
    | (st1, out) =>
      match openaiRun st1 rest with
      | (st2, outRest) => (st2, out ++ outRest)

/-! The SSE reader's queue bridge (src/sse.ts, streamSSE, queue-based
variant). The source forks a background fiber that feeds parsed events into
an unbounded queue and shuts the queue down in an Effect.ensuring finalizer;
a fiber observer added afterwards offers an SSEQueueEvent.Error to the queue
when the fiber's exit is a failure or a defect. The embedding models the
effect library's queue semantics: an unsafe offer on a queue that has been
shut down is dropped (it returns false), and fiber observers run only after
the fiber's finalizers, so the shutdown always precedes the error offer.
The consumer side (Stream.fromQueue with shutdown, mapped through
mapQueueEvent) yields the queued events in order and ends the stream at the
queue shutdown, failing only if an Error item was actually queued. -/

/-- An item of the bridging queue (sse.ts SSEQueueEvent): a parsed SSE event
(abstracted to its data) or a propagated error message. -/
inductive SSEQueueItem where
  | event (data : String)
  | error (message : String)
deriving DecidableEq, Repr

/-- The bridging queue: its items in offer order and its shutdown flag. -/
structure SSEQueue where
  items : List SSEQueueItem
  isShutdown : Bool
deriving DecidableEq, Repr

/-- Offer an item (Queue.unsafeOffer): dropped when the queue has been shut
down. -/
def queueOffer (q : SSEQueue) (item : SSEQueueItem) : SSEQueue :=
  if q.isShutdown then q else { q with items := q.items ++ [item] }

/-- Shut the queue down (Queue.shutdown). -/
def queueShutdown (q : SSEQueue) : SSEQueue := { q with isShutdown := true }

/-- How the background byte-consuming fiber exits: normally, with a transport
failure (a Fail cause), or with a defect (a Die cause). -/
inductive TaskExit where
  | success
  | failure (message : String)
  | defect (message : String)
deriving DecidableEq, Repr

/-- The queue produced by one run of the background task (sse.ts streamSSE):
the parser offers every parsed event during the run, the Effect.ensuring
finalizer shuts the queue down when the task ends, and only then does the
fiber observer offer the Error item for a failing exit. -/
def streamSSEQueueTrace (parsed : List String) (taskExit : TaskExit) : SSEQueue :=
  let afterRun := parsed.foldl (fun q d => queueOffer q (.event d)) ⟨[], false⟩
  let afterEnsuring := queueShutdown afterRun
  match taskExit with
  | .success => afterEnsuring
  | .failure msg => queueOffer afterEnsuring (.error msg)
  | .defect msg => queueOffer afterEnsuring (.error msg)

/-- Consume queued items in order (sse.ts mapQueueEvent over
Stream.fromQueue): Event items are emitted, the first Error item fails the
stream, and exhausting a shut-down queue ends the stream successfully with no
terminal error. -/
def consumeItems : List SSEQueueItem → List String × Option String
  | [] => ([], none)
  | .event d :: rest =>
    match consumeItems rest with
    | (es, err?) => (d :: es, err?)
  | .error m :: _ => ([], some m)

/-- The consumer-visible outcome of the SSE event stream: the delivered
events and the terminal error, if any. -/
def consumeSSEQueue (q : SSEQueue) : List String × Option String :=
  consumeItems q.items

/-! Helper definitions used by the theorems. -/

/-- The id, name, raw arguments and human-readable message carried by a
recoverable invalid-call record error (UnknownToolCallError's message is
computed as in generation.ts; InvalidToolCallError's message is the
ParseError message of the failed validation). -/
def invalidCallMessage : RecordError → Option (String × String × String × String)
  | .unknownToolCall id name args => some (id, name, args, "Unknown tool call: " ++ name)
  | .invalidToolCall id name args msg => some (id, name, args, msg)
  | .parseError _ => none

/-- The calls recorded from a list of events that all record without error. -/
def callsOf (parse : String → Except String Json) (tools : List ToolDefinition)
    (events : List StreamEvent) : List FnCall :=
  events.filterMap (fun e =>
    match onStreamEvent parse tools e with
    | .ok call? => call?
    | .error _ => none)

/-- Whether a stream event is an InvalidToolCall event. -/
def isInvalidToolCallEvent : StreamEvent → Bool
  | .InvalidToolCall _ _ _ => true
  | _ => false

/-- The number of InvalidToolCall events in a streamTools output. -/
def countInvalid (out : List StreamToolsEvent) : Nat :=
  out.countP (fun ev =>
    match ev with
    | .streamEvent e => isInvalidToolCallEvent e
    | _ => false)

/-- Concatenation of a list of strings in order. -/
def concatAll : List String → String
  | [] => ""
  | s :: rest => s ++ concatAll rest

/-- The content fields of the Content events of a decoder output, in
emission order. -/
def contentsOf : List StreamEvent → List String
  | [] => []
  | .Content c :: rest => c :: contentsOf rest
  | _ :: rest => contentsOf rest

/-- The message contents of the Message events of a decoder output, in
emission order. -/
def messagesOf : List StreamEvent → List String
  | [] => []
  | .Message m :: rest => m.content :: messagesOf rest
  | _ :: rest => messagesOf rest

lemma length_pos_of_ne_empty (s : String) (h : s ≠ "") : 0 < s.length := by
  cases s with
  | mk data =>
    cases data with
    | nil => exact absurd rfl h
    | cons c cs => simp [String.length]

lemma eq_empty_of_length_eq_zero (s : String) (h : s.length = 0) : s = "" := by
  cases s with
  | mk data =>
    cases data with
    | nil => rfl
    | cons c cs => simp [String.length] at h

lemma recordCalls_append_error (parse : String → Except String Json)
    (tools : List ToolDefinition) (pre rest : List StreamEvent) (e : StreamEvent)
    (err : RecordError)
    (hok : ∀ x ∈ pre, recordsOk parse tools x = true)
    (he : onStreamEvent parse tools e = .error err) :
    recordCalls parse tools (pre ++ e :: rest) =
      (pre.map .streamEvent, callsOf parse tools pre, some err) := by
  induction pre with
  | nil => simp [recordCalls, he, callsOf]
  | cons x pre ih =>
    have hx := hok x (List.mem_cons_self x pre)
    unfold recordsOk at hx
    revert hx
    cases hc : onStreamEvent parse tools x with
    | error err2 => intro hx; simp at hx
    | ok call? =>
      intro _
      have ih2 := ih (fun y hy => hok y (List.mem_cons_of_mem _ hy))
      simp only [List.cons_append, recordCalls, hc, ih2, callsOf, List.filterMap_cons,
        List.map_cons]
      cases call? <;> simp [callsOf, ih2]

lemma countInvalid_append (l1 l2 : List StreamToolsEvent) :
    countInvalid (l1 ++ l2) = countInvalid l1 + countInvalid l2 := by
  simp [countInvalid, List.countP_append]

lemma countInvalid_forwarded_zero (pre : List StreamEvent)
    (hni : ∀ e ∈ pre, isInvalidToolCallEvent e = false) :
    countInvalid (pre.map .streamEvent) = 0 := by
  induction pre with
  | nil => simp [countInvalid]
  | cons x pre ih =>
    have hx := hni x (List.mem_cons_self x pre)
    have ih2 := ih (fun y hy => hni y (List.mem_cons_of_mem _ hy))
    simp [countInvalid, List.countP_cons, hx] at ih2 ⊢
    simpa [hx] using ih2

lemma mapGet_mapSet_self (m : List (Nat × ToolAcc)) (k : Nat) (v : ToolAcc) :
    mapGet (mapSet m k v) k = some v := by
  induction m with
  | nil => simp [mapSet, mapGet]
  | cons p rest ih =>
    obtain ⟨k1, v1⟩ := p
    by_cases h : k1 = k <;> simp [mapSet, mapGet, h, ih]

/-! Claim theorems. -/

/-- C4: for every streamTools call with maxIterations equal to zero, the
output stream fails with the iteration-budget-exhaustion error
(MaxIterationsError) as its only signal — no event is emitted — and the
provider invocation log is empty: the backend is never called. -/
theorem streamTools_maxIterationsZero
    (parse : String → Except String Json)
    (provider : List ThreadEvent → List StreamEvent)
    (fuel : Nat) (params : StreamParams)
    (h : params.maxIterations = some 0) :
    streamTools parse provider (fuel + 1) params =
      ⟨[], [], some .maxIterationsError⟩ := by
  simp [streamTools, h]

/-- Witness for C4 at a concrete call. -/
theorem streamTools_maxIterationsZero_witness :
    streamTools (fun _ => .error "bad") (fun _ => []) 1 ⟨[], some 0, [], none⟩ =
      ⟨[], [], some .maxIterationsError⟩ :=
  streamTools_maxIterationsZero _ _ 0 _ rfl

/-- C7: evaluating the SSE queue bridge at a failing background task. The
parsed events are offered while the task runs; the Effect.ensuring finalizer
then shuts the queue down, and only afterwards does the fiber observer offer
the Error item, which a shut-down queue drops. The consumer therefore sees
the delivered events and a stream that ends with NO terminal error — for a
transport failure and for a defect alike — contradicting the requirement
that a failing background task propagate its failure to the consumer. -/
theorem streamSSE_backgroundFailure_silentEnd :
    consumeSSEQueue (streamSSEQueueTrace ["message-frame"] (.failure "transport error"))
      = (["message-frame"], none) ∧
    consumeSSEQueue (streamSSEQueueTrace [] (.defect "boom")) = ([], none) := by
  constructor <;> rfl

/-- C8: within one batch, tool handlers run strictly sequentially and in the
order the ToolCall events were streamed: the scheduling trace of
handleToolCalls is exactly the in-order prefix of the recorded calls that
were invoked, each handler's enter immediately followed by its exit — so no
handler starts before the previous one has fully resolved and no two
handlers overlap — and when the batch completes, every recorded call was
invoked. -/
theorem handleToolCalls_sequentialTrace (calls : List FnCall) :
    ∃ k, k ≤ calls.length ∧
      (handleToolCalls calls).trace =
        (calls.take k).flatMap (fun c => [.enter c.id, .exit c.id]) ∧
      ((handleToolCalls calls).result = .completed → k = calls.length) := by
  induction calls with
  | nil => exact ⟨0, by simp [handleToolCalls]⟩
  | cons c rest ih =>
    obtain ⟨k, hk, htr, hc⟩ := ih
    cases heff : c.fnDefn.effect c.id c.input with
    | success r =>
      refine ⟨k + 1, by simpa using Nat.succ_le_succ hk, ?_, ?_⟩
      · simp [handleToolCalls, heff, htr]
      · intro hres
        simp only [handleToolCalls, heff] at hres
        simpa using hc hres
    | toolError p =>
      refine ⟨k + 1, by simpa using Nat.succ_le_succ hk, ?_, ?_⟩
      · simp [handleToolCalls, heff, htr]
      · intro hres
        simp only [handleToolCalls, heff] at hres
        simpa using hc hres
    | halt =>
      refine ⟨1, by simp, by simp [handleToolCalls, heff], ?_⟩
      intro hres
      simp [handleToolCalls, heff] at hres
    | invalidCall i n a m =>
      refine ⟨1, by simp, by simp [handleToolCalls, heff], ?_⟩
      intro hres
      simp [handleToolCalls, heff] at hres
    | failure msg =>
      refine ⟨1, by simp, by simp [handleToolCalls, heff], ?_⟩
      intro hres
      simp [handleToolCalls, heff] at hres
    | died msg =>
      refine ⟨1, by simp, by simp [handleToolCalls, heff], ?_⟩
      intro hres
      simp [handleToolCalls, heff] at hres

/-- C9: in the Anthropic decoder, a content_block_delta whose index has no
open block of the expected kind, or a content_block_stop whose index has no
open block at all, makes the step fail on the defect channel (the thrown
Error of the source), never as a recoverable decode error and never as a
silent ok-with-no-events skip. -/
theorem anthropicStep_missingBlock_defect (blocks : List Block) (idx : Nat)
    (t pj : String) :
    (hasTextBlock blocks idx = false →
      anthropicStep blocks (.contentBlockDelta idx (.textDelta t)) =
        .error "No text block found") ∧
    (hasToolBlock blocks idx = false →
      anthropicStep blocks (.contentBlockDelta idx (.inputJsonDelta pj)) =
        .error "No tool use block found") ∧
    (blocks.find? (fun b => b.index == idx) = none →
      anthropicStep blocks (.contentBlockStop idx) =
        .error "No content block found") := by
  refine ⟨fun h => ?_, fun h => ?_, fun h => ?_⟩ <;> simp [anthropicStep, h]

/-- Witness for C9: the three defects at an empty block state. -/
theorem anthropicStep_missingBlock_defect_witness :
    anthropicStep [] (.contentBlockDelta 0 (.textDelta "hi")) =
      .error "No text block found" ∧
    anthropicStep [] (.contentBlockDelta 0 (.inputJsonDelta "x")) =
      .error "No tool use block found" ∧
    anthropicStep [] (.contentBlockStop 0) = .error "No content block found" :=
  ⟨(anthropicStep_missingBlock_defect [] 0 "hi" "x").1 rfl,
   (anthropicStep_missingBlock_defect [] 0 "hi" "x").2.1 rfl,
   (anthropicStep_missingBlock_defect [] 0 "hi" "x").2.2 rfl⟩

/-- C2: when a tool handler raises the halt signal as the second of three
recorded calls, the output stream ends successfully (terminal signal none)
after emitting only the first call's tool result, the provider is invoked
exactly once (no recursive iteration starts), and the scheduling trace shows
the third call's handler is never invoked — the conclusion holds for every
third call, whatever its handler would do. -/
theorem streamTools_haltSecondOfThree
    (parse : String → Except String Json)
    (provider : List ThreadEvent → List StreamEvent)
    (fuel : Nat) (params : StreamParams) (truncated : List ThreadEvent)
    (fwd : List StreamToolsEvent) (c1 c2 c3 : FnCall) (r1 : Json)
    (hmi : params.maxIterations ≠ some 0)
    (htr : truncateOf params = .ok truncated)
    (hrec : recordCalls parse params.tools (provider truncated) =
      (fwd, [c1, c2, c3], none))
    (h1 : c1.fnDefn.effect c1.id c1.input = .success r1)
    (h2 : c2.fnDefn.effect c2.id c2.input = .halt) :
    streamTools parse provider (fuel + 1) params =
      ⟨.StreamLoop :: fwd ++ [.StreamLoopEnd, .ToolResultSuccess c1.id c1.name r1],
       [truncated], none⟩ ∧
    (handleToolCalls [c1, c2, c3]).trace =
      [.enter c1.id, .exit c1.id, .enter c2.id, .exit c2.id] := by
  have hbatch : handleToolCalls [c1, c2, c3] =
      ⟨[.ToolResultSuccess c1.id c1.name r1],
       [.ToolUseEvent c1.id c1.name c1.input, .ToolResultSuccessEvent c1.id c1.name r1],
       [.enter c1.id, .exit c1.id, .enter c2.id, .exit c2.id], .halted⟩ := by
    simp [handleToolCalls, h1, h2]
  constructor
  · simp [streamTools, hmi, htr, hrec, hbatch]
  · rw [hbatch]

/-- C3 (amended): within one batch, a handler failing with a declared
ToolError emits a ToolResultError, appends the ToolUseEvent plus
ToolResultErrorEvent, and execution continues with the remaining calls of
the batch; a handler failing with any other undeclared error in the failure
channel — other than the halt signal and the library's own
InvalidToolCallError — aborts the batch regardless of the sibling calls
still pending and ends the output stream with a fatal ToolExecutionError and
no recursion (one provider invocation); a handler that throws a defect
likewise aborts the batch with no recursion, but the stream ends with an
UnknownException rather than a ToolExecutionError; and a handler failing
with InvalidToolCallError aborts the batch and is recovered through the
invalid-tool-call path: the stream emits an InvalidToolCall event and
recurses with the extended thread and decremented budget instead of
failing. -/
theorem streamTools_handlerFailure_taxonomy
    (parse : String → Except String Json)
    (provider : List ThreadEvent → List StreamEvent)
    (fuel : Nat) (params : StreamParams) (truncated : List ThreadEvent)
    (fwd : List StreamToolsEvent) (fnCalls : List FnCall) (c : FnCall)
    (rest : List FnCall)
    (hmi : params.maxIterations ≠ some 0)
    (htr : truncateOf params = .ok truncated)
    (hrec : recordCalls parse params.tools (provider truncated) = (fwd, fnCalls, none))
    (hne : fnCalls ≠ []) :
    (∀ p : Json, c.fnDefn.effect c.id c.input = .toolError p →
      handleToolCalls (c :: rest) =
        ⟨.ToolResultError c.id c.name p :: (handleToolCalls rest).emitted,
         .ToolUseEvent c.id c.name c.input :: .ToolResultErrorEvent c.id c.name p ::
           (handleToolCalls rest).newEvents,
         .enter c.id :: .exit c.id :: (handleToolCalls rest).trace,
         (handleToolCalls rest).result⟩) ∧
    (∀ fmsg, c.fnDefn.effect c.id c.input = .failure fmsg →
      handleToolCalls (c :: rest) =
        ⟨[], [], [.enter c.id, .exit c.id], .fatal c.id fmsg⟩) ∧
    (∀ idf msgf, (handleToolCalls fnCalls).result = .fatal idf msgf →
      streamTools parse provider (fuel + 1) params =
        ⟨.StreamLoop :: fwd ++ [.StreamLoopEnd] ++ (handleToolCalls fnCalls).emitted,
         [truncated], some (.toolExecutionError idf msgf)⟩) ∧
    (∀ dmsg, c.fnDefn.effect c.id c.input = .died dmsg →
      handleToolCalls (c :: rest) =
        ⟨[], [], [.enter c.id, .exit c.id], .died dmsg⟩) ∧
    (∀ dmsg, (handleToolCalls fnCalls).result = .died dmsg →
      streamTools parse provider (fuel + 1) params =
        ⟨.StreamLoop :: fwd ++ [.StreamLoopEnd] ++ (handleToolCalls fnCalls).emitted,
         [truncated], some (.unknownException dmsg)⟩) ∧
    (∀ i n a m, c.fnDefn.effect c.id c.input = .invalidCall i n a m →
      handleToolCalls (c :: rest) =
        ⟨[], [], [.enter c.id, .exit c.id], .invalidCall i n a m⟩) ∧
    (∀ i n a m inp newParams,
      (handleToolCalls fnCalls).result = .invalidCall i n a m →
      parse a = .ok inp →
      newParams =
        { params with
          events := params.events ++
            [ThreadEvent.ToolUseEvent i n inp,
             ThreadEvent.ToolResultErrorEvent i n (Json.str m)],
          maxIterations := params.maxIterations.map (· - 1) } →
      streamTools parse provider (fuel + 1) params =
        ⟨.StreamLoop :: fwd ++ [.StreamLoopEnd] ++ (handleToolCalls fnCalls).emitted
           ++ ([.streamEvent (.InvalidToolCall i n a)]
             ++ (streamTools parse provider fuel newParams).emitted),
         [truncated] ++ (streamTools parse provider fuel newParams).calls,
         (streamTools parse provider fuel newParams).error?⟩) := by
  have hempty : fnCalls.isEmpty = false := by
    cases fnCalls with
    | nil => exact absurd rfl hne
    | cons a l => rfl
  refine ⟨?_, ?_, ?_, ?_, ?_, ?_, ?_⟩
  · intro p hc
    simp [handleToolCalls, hc]
  · intro fmsg hc
    simp [handleToolCalls, hc]
  · intro idf msgf hres
    simp [streamTools, hmi, htr, hrec, hempty, hres]
  · intro dmsg hc
    simp [handleToolCalls, hc]
  · intro dmsg hres
    simp [streamTools, hmi, htr, hrec, hempty, hres]
  · intro i n a m hc
    simp [handleToolCalls, hc]
  · intro i n a m inp newParams hres hparse hnp
    simp [streamTools, hmi, htr, hrec, hempty, hres, onInvalidToolCall, hparse, hnp]

/-! Concrete data for the witnesses: a tiny JSON parser standing in for the
external JSON.parse (it accepts exactly the string "null"), and tools whose
handlers realize each outcome. -/

/-- A concrete parse function for witnesses. -/
def parseNull : String → Except String Json :=
  fun s => if s = "null" then .ok .null else .error "Unexpected token"

/-- A tool whose handler succeeds. -/
def toolOk : ToolDefinition :=
  ⟨"ok", false, fun j => .ok j, fun _ _ => .success .null⟩

/-- A tool whose handler raises the halt signal. -/
def toolHalting : ToolDefinition :=
  ⟨"stopNow", false, fun j => .ok j, fun _ _ => .halt⟩

/-- A tool whose handler fails with a declared ToolError. -/
def toolReporting : ToolDefinition :=
  ⟨"report", false, fun j => .ok j, fun _ _ => .toolError (.str "domain failure")⟩

/-- A tool whose handler fails with an undeclared error in the failure
channel. -/
def toolCrashing : ToolDefinition :=
  ⟨"crash", false, fun j => .ok j, fun _ _ => .failure "crash message"⟩

/-- A tool whose handler throws a defect. -/
def toolThrowing : ToolDefinition :=
  ⟨"thrower", false, fun j => .ok j, fun _ _ => .died "thrown defect"⟩

/-- A tool whose handler fails with the library's InvalidToolCallError. -/
def toolInvReporting : ToolDefinition :=
  ⟨"inv", false, fun j => .ok j,
   fun _ _ => .invalidCall "id1" "inv" "null" "synthetic parse failure"⟩

/-- A provider that requests the "inv" tool on a fresh thread and nothing on
an extended thread, so a recovery recursion can be observed ending. -/
def providerRecovery : List ThreadEvent → List StreamEvent
  | [] => [.ToolCall "id1" "inv" "null"]
  | _ :: _ => []

/-- Witness for C2: three recorded calls, the second halting. -/
theorem streamTools_haltSecondOfThree_witness :
    streamTools parseNull
      (fun _ => [.ToolCall "id1" "ok" "null", .ToolCall "id2" "stopNow" "null",
                 .ToolCall "id3" "ok" "null"])
      1 ⟨[], some 3, [toolOk, toolHalting], none⟩ =
      ⟨.StreamLoop :: [.streamEvent (.ToolCall "id1" "ok" "null"),
          .streamEvent (.ToolCall "id2" "stopNow" "null"),
          .streamEvent (.ToolCall "id3" "ok" "null")]
        ++ [.StreamLoopEnd, .ToolResultSuccess "id1" "ok" Json.null],
       [[]], none⟩ ∧
    (handleToolCalls [⟨"id1", "ok", "null", .null, toolOk⟩,
        ⟨"id2", "stopNow", "null", .null, toolHalting⟩,
        ⟨"id3", "ok", "null", .null, toolOk⟩]).trace =
      [.enter "id1", .exit "id1", .enter "id2", .exit "id2"] :=
  streamTools_haltSecondOfThree parseNull _ 0 _ [] _
    ⟨"id1", "ok", "null", .null, toolOk⟩
    ⟨"id2", "stopNow", "null", .null, toolHalting⟩
    ⟨"id3", "ok", "null", .null, toolOk⟩ Json.null
    (by simp) rfl rfl rfl rfl

/-- C3 counterexample: the claim states that a handler failing with any
undeclared error (anything other than a declared ToolError) ends the output
stream with a fatal ToolExecutionError and no further recursion. At the
first concrete input the handler fails with the library's
InvalidToolCallError: the stream does not fail at all — it emits an
InvalidToolCall event, extends the thread, recurses (the provider call log
has two entries) and ends successfully with no terminal error. At the second
input the handler throws a defect: the stream does end, but with an
UnknownException, not a ToolExecutionError. -/
theorem streamTools_handlerInvalidCall_counterexample :
    streamTools parseNull providerRecovery 2 ⟨[], some 2, [toolInvReporting], none⟩ =
      ⟨[.StreamLoop, .streamEvent (.ToolCall "id1" "inv" "null"), .StreamLoopEnd,
        .streamEvent (.InvalidToolCall "id1" "inv" "null"),
        .StreamLoop, .StreamLoopEnd],
       [[], [.ToolUseEvent "id1" "inv" .null,
             .ToolResultErrorEvent "id1" "inv" (.str "synthetic parse failure")]],
       none⟩ ∧
    (streamTools parseNull (fun _ => [.ToolCall "idt" "thrower" "null"]) 2
        ⟨[], some 2, [toolThrowing], none⟩).error? =
      some (.unknownException "thrown defect") := by
  constructor <;> rfl

/-- Witness for the amended C3 at concrete calls: a declared ToolError
continuing with the tail, an undeclared failure ending fatally with
ToolExecutionError, a thrown defect ending with UnknownException, and an
InvalidToolCallError failure recovering into a recursion. -/
theorem streamTools_handlerFailure_taxonomy_witness :
    handleToolCalls (⟨"idr", "report", "null", .null, toolReporting⟩ ::
        [⟨"id1", "ok", "null", .null, toolOk⟩]) =
      ⟨.ToolResultError "idr" "report" (.str "domain failure") ::
         (handleToolCalls [⟨"id1", "ok", "null", .null, toolOk⟩]).emitted,
       .ToolUseEvent "idr" "report" .null ::
         .ToolResultErrorEvent "idr" "report" (.str "domain failure") ::
         (handleToolCalls [⟨"id1", "ok", "null", .null, toolOk⟩]).newEvents,
       .enter "idr" :: .exit "idr" ::
         (handleToolCalls [⟨"id1", "ok", "null", .null, toolOk⟩]).trace,
       (handleToolCalls [⟨"id1", "ok", "null", .null, toolOk⟩]).result⟩ ∧
    handleToolCalls (⟨"idc", "crash", "null", .null, toolCrashing⟩ ::
        [⟨"id1", "ok", "null", .null, toolOk⟩]) =
      ⟨[], [], [.enter "idc", .exit "idc"], .fatal "idc" "crash message"⟩ ∧
    streamTools parseNull (fun _ => [.ToolCall "idc" "crash" "null"]) 1
      ⟨[], some 3, [toolCrashing], none⟩ =
      ⟨.StreamLoop :: [.streamEvent (.ToolCall "idc" "crash" "null")]
         ++ [.StreamLoopEnd]
         ++ (handleToolCalls [⟨"idc", "crash", "null", .null, toolCrashing⟩]).emitted,
       [[]], some (.toolExecutionError "idc" "crash message")⟩ ∧
    handleToolCalls (⟨"idt", "thrower", "null", .null, toolThrowing⟩ ::
        [⟨"id1", "ok", "null", .null, toolOk⟩]) =
      ⟨[], [], [.enter "idt", .exit "idt"], .died "thrown defect"⟩ ∧
    streamTools parseNull (fun _ => [.ToolCall "idt" "thrower" "null"]) 1
      ⟨[], some 3, [toolThrowing], none⟩ =
      ⟨.StreamLoop :: [.streamEvent (.ToolCall "idt" "thrower" "null")]
         ++ [.StreamLoopEnd]
         ++ (handleToolCalls [⟨"idt", "thrower", "null", .null, toolThrowing⟩]).emitted,
       [[]], some (.unknownException "thrown defect")⟩ ∧
    handleToolCalls (⟨"id1", "inv", "null", .null, toolInvReporting⟩ ::
        [⟨"id1", "ok", "null", .null, toolOk⟩]) =
      ⟨[], [], [.enter "id1", .exit "id1"],
       .invalidCall "id1" "inv" "null" "synthetic parse failure"⟩ ∧
    streamTools parseNull providerRecovery 2 ⟨[], some 2, [toolInvReporting], none⟩ =
      ⟨.StreamLoop :: [.streamEvent (.ToolCall "id1" "inv" "null")]
         ++ [.StreamLoopEnd]
         ++ (handleToolCalls [⟨"id1", "inv", "null", .null, toolInvReporting⟩]).emitted
         ++ ([.streamEvent (.InvalidToolCall "id1" "inv" "null")]
           ++ (streamTools parseNull providerRecovery 1
                ⟨[.ToolUseEvent "id1" "inv" .null,
                  .ToolResultErrorEvent "id1" "inv" (.str "synthetic parse failure")],
                 some 1, [toolInvReporting], none⟩).emitted),
       [[]] ++ (streamTools parseNull providerRecovery 1
                ⟨[.ToolUseEvent "id1" "inv" .null,
                  .ToolResultErrorEvent "id1" "inv" (.str "synthetic parse failure")],
                 some 1, [toolInvReporting], none⟩).calls,
       (streamTools parseNull providerRecovery 1
                ⟨[.ToolUseEvent "id1" "inv" .null,
                  .ToolResultErrorEvent "id1" "inv" (.str "synthetic parse failure")],
                 some 1, [toolInvReporting], none⟩).error?⟩ := by
  have hF := streamTools_handlerFailure_taxonomy parseNull
    (fun _ => [.ToolCall "idc" "crash" "null"]) 0 ⟨[], some 3, [toolCrashing], none⟩
    [] [.streamEvent (.ToolCall "idc" "crash" "null")]
    [⟨"idc", "crash", "null", .null, toolCrashing⟩]
    ⟨"idr", "report", "null", .null, toolReporting⟩
    [⟨"id1", "ok", "null", .null, toolOk⟩]
    (by simp) rfl rfl (List.cons_ne_nil _ _)
  have hF2 := streamTools_handlerFailure_taxonomy parseNull
    (fun _ => [.ToolCall "idc" "crash" "null"]) 0 ⟨[], some 3, [toolCrashing], none⟩
    [] [.streamEvent (.ToolCall "idc" "crash" "null")]
    [⟨"idc", "crash", "null", .null, toolCrashing⟩]
    ⟨"idc", "crash", "null", .null, toolCrashing⟩
    [⟨"id1", "ok", "null", .null, toolOk⟩]
    (by simp) rfl rfl (List.cons_ne_nil _ _)
  have hD := streamTools_handlerFailure_taxonomy parseNull
    (fun _ => [.ToolCall "idt" "thrower" "null"]) 0 ⟨[], some 3, [toolThrowing], none⟩
    [] [.streamEvent (.ToolCall "idt" "thrower" "null")]
    [⟨"idt", "thrower", "null", .null, toolThrowing⟩]
    ⟨"idt", "thrower", "null", .null, toolThrowing⟩
    [⟨"id1", "ok", "null", .null, toolOk⟩]
    (by simp) rfl rfl (List.cons_ne_nil _ _)
  have hI := streamTools_handlerFailure_taxonomy parseNull
    providerRecovery 1 ⟨[], some 2, [toolInvReporting], none⟩
    [] [.streamEvent (.ToolCall "id1" "inv" "null")]
    [⟨"id1", "inv", "null", .null, toolInvReporting⟩]
    ⟨"id1", "inv", "null", .null, toolInvReporting⟩
    [⟨"id1", "ok", "null", .null, toolOk⟩]
    (by simp) rfl rfl (List.cons_ne_nil _ _)
  exact ⟨hF.1 (.str "domain failure") rfl,
         hF2.2.1 "crash message" rfl,
         hF.2.2.1 "idc" "crash message" rfl,
         hD.2.2.2.1 "thrown defect" rfl,
         hD.2.2.2.2.1 "thrown defect" rfl,
         hI.2.2.2.2.2.1 "id1" "inv" "null" "synthetic parse failure" rfl,
         hI.2.2.2.2.2.2 "id1" "inv" "null" "synthetic parse failure" .null
           ⟨[.ToolUseEvent "id1" "inv" .null,
             .ToolResultErrorEvent "id1" "inv" (.str "synthetic parse failure")],
            some 1, [toolInvReporting], none⟩ rfl rfl rfl⟩

/-- C1: when the provider stream contains a ToolCall naming an unregistered
tool or one whose arguments fail schema validation (and every earlier event
records cleanly and is not itself an InvalidToolCall), and the raw arguments
do parse as JSON, then the iteration emits exactly one InvalidToolCall event
(the count of the whole output exceeds the recursion's count by exactly one),
and the loop recurses with the thread extended by exactly one ToolUseEvent
carrying the raw decoded-but-unvalidated JSON input plus one
ToolResultErrorEvent carrying the human-readable message, with the iteration
budget reduced by exactly one (some (n+1) becomes some n). -/
theorem streamTools_invalidToolCall_recovers
    (parse : String → Except String Json)
    (provider : List ThreadEvent → List StreamEvent)
    (fuel n : Nat) (params newParams : StreamParams) (truncated : List ThreadEvent)
    (pre rest : List StreamEvent) (id name args msg : String)
    (err : RecordError) (input : Json)
    (hmi : params.maxIterations = some (n + 1))
    (htr : truncateOf params = .ok truncated)
    (hpe : provider truncated = pre ++ StreamEvent.ToolCall id name args :: rest)
    (hok : ∀ e ∈ pre, recordsOk parse params.tools e = true)
    (hni : ∀ e ∈ pre, isInvalidToolCallEvent e = false)
    (hbad : onStreamEvent parse params.tools (StreamEvent.ToolCall id name args) =
      .error err)
    (hmsg : invalidCallMessage err = some (id, name, args, msg))
    (hparse : parse args = .ok input)
    (hnew : newParams =
      { params with
        events := params.events ++
          [ThreadEvent.ToolUseEvent id name input,
           ThreadEvent.ToolResultErrorEvent id name (Json.str msg)],
        maxIterations := some n }) :
    streamTools parse provider (fuel + 1) params =
      ⟨(StreamToolsEvent.StreamLoop :: pre.map StreamToolsEvent.streamEvent)
         ++ [StreamToolsEvent.streamEvent (StreamEvent.InvalidToolCall id name args)]
         ++ (streamTools parse provider fuel newParams).emitted,
       truncated :: (streamTools parse provider fuel newParams).calls,
       (streamTools parse provider fuel newParams).error?⟩ ∧
    countInvalid (streamTools parse provider (fuel + 1) params).emitted =
      1 + countInvalid (streamTools parse provider fuel newParams).emitted := by
  have hrec := recordCalls_append_error parse params.tools pre rest _ err hok hbad
  have hmain : streamTools parse provider (fuel + 1) params =
      ⟨(StreamToolsEvent.StreamLoop :: pre.map StreamToolsEvent.streamEvent)
         ++ [StreamToolsEvent.streamEvent (StreamEvent.InvalidToolCall id name args)]
         ++ (streamTools parse provider fuel newParams).emitted,
       truncated :: (streamTools parse provider fuel newParams).calls,
       (streamTools parse provider fuel newParams).error?⟩ := by
    cases err with
    | parseError m => simp [invalidCallMessage] at hmsg
    | unknownToolCall i nm ar =>
      obtain ⟨rfl, rfl, rfl, rfl⟩ : i = id ∧ nm = name ∧ ar = args ∧
          ("Unknown tool call: " ++ nm) = msg := by
        simpa [invalidCallMessage] using hmsg
      simp [streamTools, hmi, htr, hpe, hrec, onInvalidToolCall, hparse, hnew]
    | invalidToolCall i nm ar m =>
      obtain ⟨rfl, rfl, rfl, rfl⟩ : i = id ∧ nm = name ∧ ar = args ∧ m = msg := by
        simpa [invalidCallMessage] using hmsg
      simp [streamTools, hmi, htr, hpe, hrec, onInvalidToolCall, hparse, hnew]
  refine ⟨hmain, ?_⟩
  rw [hmain]
  have hzero := countInvalid_forwarded_zero pre hni
  have hsl : countInvalid
      (StreamToolsEvent.StreamLoop :: pre.map StreamToolsEvent.streamEvent) = 0 := by
    simp only [countInvalid] at hzero ⊢
    rw [List.countP_cons]
    simp [hzero]
  have hone : countInvalid
      [StreamToolsEvent.streamEvent (StreamEvent.InvalidToolCall id name args)] = 1 := rfl
  rw [countInvalid_append, countInvalid_append, hsl, hone]

/-- Witness for C1: a call to the unregistered tool "ghost" with arguments
that parse as JSON. -/
theorem streamTools_invalidToolCall_recovers_witness :
    streamTools parseNull (fun _ => [.ToolCall "id9" "ghost" "null"]) 2
      ⟨[], some 2, [], none⟩ =
      ⟨(StreamToolsEvent.StreamLoop :: List.map StreamToolsEvent.streamEvent [])
         ++ [StreamToolsEvent.streamEvent (StreamEvent.InvalidToolCall "id9" "ghost" "null")]
         ++ (streamTools parseNull (fun _ => [.ToolCall "id9" "ghost" "null"]) 1
              ⟨[.ToolUseEvent "id9" "ghost" .null,
                .ToolResultErrorEvent "id9" "ghost" (.str ("Unknown tool call: " ++ "ghost"))],
                some 1, [], none⟩).emitted,
       [] :: (streamTools parseNull (fun _ => [.ToolCall "id9" "ghost" "null"]) 1
              ⟨[.ToolUseEvent "id9" "ghost" .null,
                .ToolResultErrorEvent "id9" "ghost" (.str ("Unknown tool call: " ++ "ghost"))],
                some 1, [], none⟩).calls,
       (streamTools parseNull (fun _ => [.ToolCall "id9" "ghost" "null"]) 1
              ⟨[.ToolUseEvent "id9" "ghost" .null,
                .ToolResultErrorEvent "id9" "ghost" (.str ("Unknown tool call: " ++ "ghost"))],
                some 1, [], none⟩).error?⟩ ∧
    countInvalid (streamTools parseNull (fun _ => [.ToolCall "id9" "ghost" "null"]) 2
        ⟨[], some 2, [], none⟩).emitted =
      1 + countInvalid (streamTools parseNull (fun _ => [.ToolCall "id9" "ghost" "null"]) 1
              ⟨[.ToolUseEvent "id9" "ghost" .null,
                .ToolResultErrorEvent "id9" "ghost" (.str ("Unknown tool call: " ++ "ghost"))],
                some 1, [], none⟩).emitted :=
  streamTools_invalidToolCall_recovers parseNull _ 1 1 _ _ [] [] []
    "id9" "ghost" "null" ("Unknown tool call: " ++ "ghost")
    (.unknownToolCall "id9" "ghost" "null") .null
    rfl rfl rfl (by simp) (by simp) rfl rfl rfl rfl

/-- C10: when the invalid or unknown ToolCall's raw arguments do not parse as
JSON, the iteration emits the InvalidToolCall event and then the whole output
stream fails with the plain ParseError: the provider is invoked exactly once
(no recursion starts), so no ToolUseEvent or ToolResultErrorEvent is ever
appended to the thread and the invalid call is not reported back to the
model. -/
theorem streamTools_invalidToolCall_unparseable
    (parse : String → Except String Json)
    (provider : List ThreadEvent → List StreamEvent)
    (fuel : Nat) (params : StreamParams) (truncated : List ThreadEvent)
    (pre rest : List StreamEvent) (id name args msg pmsg : String)
    (err : RecordError)
    (hmi : params.maxIterations ≠ some 0)
    (htr : truncateOf params = .ok truncated)
    (hpe : provider truncated = pre ++ StreamEvent.ToolCall id name args :: rest)
    (hok : ∀ e ∈ pre, recordsOk parse params.tools e = true)
    (hbad : onStreamEvent parse params.tools (StreamEvent.ToolCall id name args) =
      .error err)
    (hmsg : invalidCallMessage err = some (id, name, args, msg))
    (hparse : parse args = .error pmsg) :
    streamTools parse provider (fuel + 1) params =
      ⟨(StreamToolsEvent.StreamLoop :: pre.map StreamToolsEvent.streamEvent)
         ++ [StreamToolsEvent.streamEvent (StreamEvent.InvalidToolCall id name args)],
       [truncated], some (.parseError pmsg)⟩ := by
  have hrec := recordCalls_append_error parse params.tools pre rest _ err hok hbad
  cases err with
  | parseError m => simp [invalidCallMessage] at hmsg
  | unknownToolCall i nm ar =>
    obtain ⟨rfl, rfl, rfl, rfl⟩ : i = id ∧ nm = name ∧ ar = args ∧
        ("Unknown tool call: " ++ nm) = msg := by
      simpa [invalidCallMessage] using hmsg
    simp [streamTools, hmi, htr, hpe, hrec, onInvalidToolCall, hparse]
  | invalidToolCall i nm ar m =>
    obtain ⟨rfl, rfl, rfl, rfl⟩ : i = id ∧ nm = name ∧ ar = args ∧ m = msg := by
      simpa [invalidCallMessage] using hmsg
    simp [streamTools, hmi, htr, hpe, hrec, onInvalidToolCall, hparse]

/-- Witness for C10: the unregistered tool "ghost" called with arguments that
are not JSON. -/
theorem streamTools_invalidToolCall_unparseable_witness :
    streamTools parseNull (fun _ => [.ToolCall "id9" "ghost" "bogus"]) 2
      ⟨[], some 2, [], none⟩ =
      ⟨(StreamToolsEvent.StreamLoop :: List.map StreamToolsEvent.streamEvent [])
         ++ [StreamToolsEvent.streamEvent (StreamEvent.InvalidToolCall "id9" "ghost" "bogus")],
       [[]], some (.parseError "Unexpected token")⟩ :=
  streamTools_invalidToolCall_unparseable parseNull _ 1 _ _ [] []
    "id9" "ghost" "bogus" ("Unknown tool call: " ++ "ghost") "Unexpected token"
    (.unknownToolCall "id9" "ghost" "bogus")
    (by simp) rfl rfl (by simp) rfl rfl rfl

/-! Lemmas for the decoder round-trip claim. -/

/-- The Anthropic-style SSE input of a single text response split across the
given delta chunks: one content_block_start, one text_delta per chunk, one
content_block_stop. -/
def anthropicTextStream (idx : Nat) (parts : List String) : List AnthropicEvent :=
  .contentBlockStart idx (.text "") ::
    (parts.map (fun s => .contentBlockDelta idx (.textDelta s)) ++ [.contentBlockStop idx])

/-- The OpenAI-style chunk input of a single text response split across the
given content fragments, terminated by a finish_reason chunk. -/
def openaiTextStream (parts : List String) : List ChatCompletionChunk :=
  parts.map (fun s => ⟨some s, [], none, none⟩) ++ [⟨none, [], some .stop, none⟩]

lemma contentsOf_map_content_message (parts : List String) (m : AssistantMessage) :
    contentsOf (parts.map StreamEvent.Content ++ [.Message m]) = parts := by
  induction parts with
  | nil => rfl
  | cons s parts ih => simp [contentsOf, ih]

lemma messagesOf_map_content_message (parts : List String) (m : AssistantMessage) :
    messagesOf (parts.map StreamEvent.Content ++ [.Message m]) = [m.content] := by
  induction parts with
  | nil => rfl
  | cons s parts ih => simp [messagesOf, ih]

lemma anthropicRun_deltas_stop (idx : Nat) (acc : String) (parts : List String) :
    anthropicRun [.text idx acc]
      (parts.map (fun s => .contentBlockDelta idx (.textDelta s)) ++
        [.contentBlockStop idx]) =
      .ok ([.text idx (acc ++ concatAll parts)],
           parts.map StreamEvent.Content ++ [.Message ⟨acc ++ concatAll parts⟩]) := by
  induction parts generalizing acc with
  | nil => simp [anthropicRun, anthropicStep, concatAll, Block.index]
  | cons s parts ih =>
    have hstep := ih (acc ++ s)
    simp [anthropicRun, anthropicStep, hasTextBlock, appendTextDelta, concatAll, hstep,
      String.append_assoc]

lemma openaiRun_contentChunks (acc : String) (parts : List String) :
    openaiRun ⟨acc, []⟩ (parts.map (fun s => ⟨some s, [], none, none⟩)) =
      (⟨acc ++ concatAll parts, []⟩, parts.map StreamEvent.Content) := by
  induction parts generalizing acc with
  | nil => simp [openaiRun, concatAll]
  | cons s parts ih =>
    have hstep := ih (acc ++ s)
    simp [openaiRun, openaiStep, accumulateToolCall, concatAll, hstep, String.append_assoc]

lemma openaiRun_append (st : OpenAIState) (l1 l2 : List ChatCompletionChunk) :
    openaiRun st (l1 ++ l2) =
      ((openaiRun (openaiRun st l1).1 l2).1,
       (openaiRun st l1).2 ++ (openaiRun (openaiRun st l1).1 l2).2) := by
  induction l1 generalizing st with
  | nil => simp [openaiRun]
  | cons c l1 ih => simp [openaiRun, ih]

/-- C5: for a single text response split across any N chunk boundaries
(N at least one, with a non-empty overall text), both decoders emit one
Content event per chunk and exactly one Message event whose content equals
the concatenation, in emission order, of the contents of all Content
events. -/
theorem decoders_contentConcat_eq_message (idx : Nat) (parts : List String)
    (hne : concatAll parts ≠ "") :
    (anthropicRun [] (anthropicTextStream idx parts) =
       .ok ([.text idx (concatAll parts)],
            .ContentStart "" :: (parts.map StreamEvent.Content
              ++ [.Message ⟨concatAll parts⟩])) ∧
     messagesOf (.ContentStart "" :: (parts.map StreamEvent.Content
         ++ [.Message ⟨concatAll parts⟩])) =
       [concatAll (contentsOf (.ContentStart "" :: (parts.map StreamEvent.Content
         ++ [.Message ⟨concatAll parts⟩])))]) ∧
    ((openaiRun openaiInit (openaiTextStream parts)).2 =
       parts.map StreamEvent.Content ++ [.Message ⟨concatAll parts⟩] ∧
     messagesOf (openaiRun openaiInit (openaiTextStream parts)).2 =
       [concatAll (contentsOf (openaiRun openaiInit (openaiTextStream parts)).2)]) := by
  have hcont : contentsOf (StreamEvent.ContentStart "" :: (parts.map StreamEvent.Content
      ++ [StreamEvent.Message ⟨concatAll parts⟩])) = parts := by
    simpa [contentsOf] using contentsOf_map_content_message parts ⟨concatAll parts⟩
  have hmsgs : messagesOf (StreamEvent.ContentStart "" :: (parts.map StreamEvent.Content
      ++ [StreamEvent.Message ⟨concatAll parts⟩])) = [concatAll parts] := by
    simpa [messagesOf] using messagesOf_map_content_message parts ⟨concatAll parts⟩
  have hanth : anthropicRun [] (anthropicTextStream idx parts) =
      .ok ([.text idx (concatAll parts)],
           .ContentStart "" :: (parts.map StreamEvent.Content
             ++ [.Message ⟨concatAll parts⟩])) := by
    have hrest := anthropicRun_deltas_stop idx "" parts
    simp [anthropicTextStream, anthropicRun, anthropicStep, hrest, String.empty_append]
  have hlen : 0 < (concatAll parts).length := length_pos_of_ne_empty _ hne
  have hopen : (openaiRun openaiInit (openaiTextStream parts)).2 =
      parts.map StreamEvent.Content ++ [.Message ⟨concatAll parts⟩] := by
    have hchunks := openaiRun_contentChunks "" parts
    rw [openaiTextStream, openaiRun_append]
    rw [show openaiInit = (⟨"", []⟩ : OpenAIState) from rfl, hchunks]
    simp [openaiRun, openaiStep, accumulateToolCall, String.empty_append, hlen]
  refine ⟨⟨hanth, ?_⟩, hopen, ?_⟩
  · rw [hcont, hmsgs]
  · rw [hopen, contentsOf_map_content_message, messagesOf_map_content_message]

/-- Witness for C5: the text "Hello" split as "Hel" and "lo". -/
theorem decoders_contentConcat_eq_message_witness :
    (anthropicRun [] (anthropicTextStream 0 ["Hel", "lo"]) =
       .ok ([.text 0 (concatAll ["Hel", "lo"])],
            .ContentStart "" :: (["Hel", "lo"].map StreamEvent.Content
              ++ [.Message ⟨concatAll ["Hel", "lo"]⟩])) ∧
     messagesOf (.ContentStart "" :: (["Hel", "lo"].map StreamEvent.Content
         ++ [.Message ⟨concatAll ["Hel", "lo"]⟩])) =
       [concatAll (contentsOf (.ContentStart "" :: (["Hel", "lo"].map StreamEvent.Content
         ++ [.Message ⟨concatAll ["Hel", "lo"]⟩])))]) ∧
    ((openaiRun openaiInit (openaiTextStream ["Hel", "lo"])).2 =
       ["Hel", "lo"].map StreamEvent.Content ++ [.Message ⟨concatAll ["Hel", "lo"]⟩] ∧
     messagesOf (openaiRun openaiInit (openaiTextStream ["Hel", "lo"])).2 =
       [concatAll (contentsOf (openaiRun openaiInit (openaiTextStream ["Hel", "lo"])).2)]) :=
  decoders_contentConcat_eq_message 0 ["Hel", "lo"] (by decide)

/-- C6 counterexample: the OpenAI decoder does NOT clear the accumulation
state after a finish_reason flush. After a chunk with finish_reason set that
carried a tool-call fragment, the per-index map still holds the accumulated
call, and a subsequent chunk with finish_reason set re-emits it: the run
output contains the same ToolCall twice. Under the claim (state cleared
after the flush) the second chunk would emit nothing. -/
theorem openai_toolCallMap_not_cleared :
    (openaiStep openaiInit
        ⟨none, [⟨0, some "call-a", some "fn", "arg"⟩], some .toolCalls, none⟩
      ).1.partialToolCalls = [(0, ⟨"call-a", "fn", "arg"⟩)] ∧
    (openaiRun openaiInit
        [⟨none, [⟨0, some "call-a", some "fn", "arg"⟩], some .toolCalls, none⟩,
         ⟨none, [], some .stop, none⟩]).2 =
      [.ToolCall "call-a" "fn" "arg", .ToolCall "call-a" "fn" "arg"] := by
  constructor <;> rfl

/-- C6 (amended): the OpenAI decoder accumulates tool-call fragments into a
per-index map where the first non-empty id and name win and argument
fragments are concatenated in arrival order; when a chunk's finish_reason is
set it flushes the accumulated text as a Message (when non-empty, resetting
the text accumulator) and every accumulated tool call as a ToolCall (the
flushed list is a suffix of the chunk's output, in map order) — but the
tool-call map itself is NOT cleared: the post-chunk map is exactly the
accumulated map. -/
theorem openaiStep_finishReason_flush
    (st : OpenAIState) (chunk : ChatCompletionChunk) (tc : ToolCallFragment)
    (t : ToolAcc)
    (hfr : chunk.finishReason.isSome = true) :
    (mapGet st.partialToolCalls tc.index = some t →
      mapGet (accumulateToolCall st.partialToolCalls (some tc)) tc.index =
        some ⟨if t.id = "" then tc.id.getD "" else t.id,
              if t.name = "" then tc.name.getD "" else t.name,
              t.arguments ++ tc.arguments⟩) ∧
    (mapGet st.partialToolCalls tc.index = none →
      mapGet (accumulateToolCall st.partialToolCalls (some tc)) tc.index =
        some ⟨tc.id.getD "", tc.name.getD "", tc.arguments⟩) ∧
    List.IsSuffix
      (((openaiStep st chunk).1.partialToolCalls).map
        (fun p => StreamEvent.ToolCall p.2.id p.2.name p.2.arguments))
      (openaiStep st chunk).2 ∧
    (st.partialMessage ≠ "" → chunk.content = none →
      StreamEvent.Message ⟨st.partialMessage⟩ ∈ (openaiStep st chunk).2) ∧
    (openaiStep st chunk).1.partialMessage = "" ∧
    (openaiStep st chunk).1.partialToolCalls =
      accumulateToolCall st.partialToolCalls chunk.toolCalls.head? := by
  refine ⟨?_, ?_, ?_, ?_, ?_, ?_⟩
  · intro h
    simp [accumulateToolCall, h, mapGet_mapSet_self]
  · intro h
    simp [accumulateToolCall, h, mapGet_mapSet_self, emptyAcc]
  · simp only [openaiStep, hfr]
    exact List.suffix_append _ _
  · intro hpm hc
    have hlen : 0 < st.partialMessage.length := length_pos_of_ne_empty _ hpm
    simp [openaiStep, hfr, hc, hlen]
  · simp only [openaiStep, hfr, Bool.true_or]
    split
    · rfl
    · next h =>
      apply eq_empty_of_length_eq_zero
      rcases Nat.eq_zero_or_pos (match chunk.content with
        | some c => st.partialMessage ++ c
        | none => st.partialMessage).length with hz | hp
      · exact hz
      · exact absurd (by simpa using hp) h
  · rfl

/-- Witness for the amended C6 at a concrete state and chunk. -/
theorem openaiStep_finishReason_flush_witness :
    (mapGet [(1, ⟨"id1", "nm", "ab"⟩)] 1 = some ⟨"id1", "nm", "ab"⟩ →
      mapGet (accumulateToolCall [(1, ⟨"id1", "nm", "ab"⟩)]
          (some ⟨1, some "zz", none, "cd"⟩)) 1 =
        some ⟨if "id1" = "" then (some "zz").getD "" else "id1",
              if "nm" = "" then (none : Option String).getD "" else "nm",
              "ab" ++ "cd"⟩) ∧
    (mapGet [(1, ⟨"id1", "nm", "ab"⟩)] 1 = none →
      mapGet (accumulateToolCall [(1, ⟨"id1", "nm", "ab"⟩)]
          (some ⟨1, some "zz", none, "cd"⟩)) 1 =
        some ⟨(some "zz").getD "", (none : Option String).getD "", "cd"⟩) ∧
    List.IsSuffix
      (((openaiStep ⟨"hello", [(1, ⟨"id1", "nm", "ab"⟩)]⟩
          ⟨none, [⟨1, some "zz", none, "cd"⟩], some .stop, none⟩).1.partialToolCalls).map
        (fun p => StreamEvent.ToolCall p.2.id p.2.name p.2.arguments))
      (openaiStep ⟨"hello", [(1, ⟨"id1", "nm", "ab"⟩)]⟩
        ⟨none, [⟨1, some "zz", none, "cd"⟩], some .stop, none⟩).2 ∧
    ("hello" ≠ "" → (none : Option String) = none →
      StreamEvent.Message ⟨"hello"⟩ ∈
        (openaiStep ⟨"hello", [(1, ⟨"id1", "nm", "ab"⟩)]⟩
          ⟨none, [⟨1, some "zz", none, "cd"⟩], some .stop, none⟩).2) ∧
    (openaiStep ⟨"hello", [(1, ⟨"id1", "nm", "ab"⟩)]⟩
        ⟨none, [⟨1, some "zz", none, "cd"⟩], some .stop, none⟩).1.partialMessage = "" ∧
    (openaiStep ⟨"hello", [(1, ⟨"id1", "nm", "ab"⟩)]⟩
        ⟨none, [⟨1, some "zz", none, "cd"⟩], some .stop, none⟩).1.partialToolCalls =
      accumulateToolCall [(1, ⟨"id1", "nm", "ab"⟩)]
        ([⟨1, some "zz", none, "cd"⟩] : List ToolCallFragment).head? :=
  openaiStep_finishReason_flush ⟨"hello", [(1, ⟨"id1", "nm", "ab"⟩)]⟩
    ⟨none, [⟨1, some "zz", none, "cd"⟩], some .stop, none⟩
    ⟨1, some "zz", none, "cd"⟩ ⟨"id1", "nm", "ab"⟩ rfl

end EffectLLM
